import Mathlib

/-!
Shallow embedding of the funnel-fusion internal-link-analysis pipeline
(`src/anchor-gap.py`, `src/dynamic_funnel_dashboard.py`, `src/gap_analysis_app.py`).

Tabular data is modelled as lists of rows; a missing/empty CSV cell (pandas `NaN`,
SQL `NULL`) is `Option.none`.  The DuckDB SQL fragments and the pandas operations
are embedded operation by operation:
* `LOWER(RTRIM(x, '/'))` is `normalize` (right-trim all `'/'`, then lower-case);
* `Funnel IN (...)` follows SQL null semantics: a `NULL` cell never matches;
* `groupby(...).count()` counts the non-null entries of the selected column and
  drops null group keys (pandas default `dropna=True`);
* `groupby(...).size()` counts all rows of each group, again dropping null keys;
* `merge(..., how="left")` keeps every left row, multiplies rows on duplicate
  join keys and — as documented for pandas, unlike SQL — matches null join keys
  with each other.
-/

namespace FunnelFusion

/-- One row of the uploaded Classification CSV (`pages` table):
`Address`, `Funnel`, `Topic`, `Geo`; empty cells are `none`. -/
structure PageRow where
  address : Option String
  funnel : Option String
  topic : Option String
  geo : Option String
deriving DecidableEq

/-- One row of the uploaded Inlinks CSV (`anchors` table):
`Source`, `Destination`, `Anchor`, `Link Position`; empty cells are `none`. -/
structure LinkRow where
  source : Option String
  destination : Option String
  anchor : Option String
  position : Option String
deriving DecidableEq

/-- `RTRIM(s, '/')`: remove every trailing `'/'` character. -/
def rtrimSlashes (s : String) : String :=
  ⟨(s.data.reverse.dropWhile (fun c => c == '/')).reverse⟩

/-- `LOWER(s)`: per-character basic-latin lower-casing. -/
def lowerString (s : String) : String :=
  ⟨s.data.map Char.toLower⟩

/-- `LOWER(RTRIM(s, '/'))` — the URL normalization used for `URL`, `FromURL`
and `ToURL` in all three SQL queries. -/
def normalize (s : String) : String :=
  lowerString (rtrimSlashes s)

/-- The spec's wording of the normalizer: lower-case the whole string first,
then strip all trailing `'/'`.  Compared against `normalize` in claim C6. -/
def normalizeSpec (s : String) : String :=
  rtrimSlashes (lowerString s)

/-- A filtered page row: `SELECT *, LOWER(RTRIM(Address, '/')) AS URL`. -/
structure FPage where
  address : Option String
  funnel : Option String
  topic : Option String
  geo : Option String
  url : Option String
deriving DecidableEq

/-- A filtered link row:
`SELECT *, LOWER(RTRIM(Source,'/')) AS FromURL, LOWER(RTRIM(Destination,'/')) AS ToURL`. -/
structure FLink where
  source : Option String
  destination : Option String
  anchor : Option String
  position : Option String
  fromUrl : Option String
  toUrl : Option String
deriving DecidableEq

def mkFPage (p : PageRow) : FPage :=
  ⟨p.address, p.funnel, p.topic, p.geo, p.address.map normalize⟩

def mkFLink (l : LinkRow) : FLink :=
  ⟨l.source, l.destination, l.anchor, l.position,
    l.source.map normalize, l.destination.map normalize⟩

/-- SQL `v IN (x1, ..., xn)` used in a `WHERE` clause: a `NULL` value yields
`NULL`, so the row is not selected. -/
def sqlIn (v : Option String) (xs : List String) : Bool :=
  match v with
  | none => false
  | some s => xs.contains s

/-- The pages query: `WHERE Funnel IN sf AND Geo IN sg`, with the derived `URL`. -/
def filterPages (sf sg : List String) (ps : List PageRow) : List FPage :=
  (ps.filter (fun p => sqlIn p.funnel sf && sqlIn p.geo sg)).map mkFPage

/-- The anchors query: `WHERE "Link Position" IN sp`, with `FromURL`/`ToURL`. -/
def filterLinks (sp : List String) (ls : List LinkRow) : List FLink :=
  (ls.filter (fun l => sqlIn l.position sp)).map mkFLink

/-- `get_filtered_data` of `anchor-gap.py` (same logic in
`dynamic_funnel_dashboard.py` step 5): if the funnel or geo selection is empty,
both relations are forced empty; if the position selection is empty, only the
link relation is forced empty. -/
def getFilteredData (sf sg sp : List String) (ps : List PageRow) (ls : List LinkRow) :
    List FPage × List FLink :=
  if sf.isEmpty || sg.isEmpty then ([], [])
  else (filterPages sf sg ps, if sp.isEmpty then [] else filterLinks sp ls)

/-- `anchors_df.groupby("ToURL")["Anchor Text"].count()`: one row per distinct
non-null `ToURL` (null keys dropped), whose value is the number of rows of the
group with a non-null `Anchor Text` (pandas `count` skips nulls). -/
def inboundCounts (ls : List FLink) : List (String × Nat) :=
  ((ls.filterMap FLink.toUrl).dedup).map
    (fun u => (u, (ls.filter (fun l => l.toUrl == some u && l.anchor.isSome)).length))

/-- One row of the gap table before column projection. -/
structure GapRow where
  page : FPage
  inboundLinks : Nat
deriving DecidableEq

/-- `pages_df.merge(inbound, left_on="URL", right_on="ToURL", how="left")`:
every page row is kept; it is repeated once per count row with an equal key
(null keys match null keys in pandas, but `inboundCounts` has no null keys),
or kept once with a null count if no key matches. -/
def leftMergeCounts (ps : List FPage) (counts : List (String × Nat)) :
    List (FPage × Option Nat) :=
  ps.flatMap (fun p =>
    match counts.filter (fun kv => some kv.1 == p.url) with
    | [] => [(p, none)]
    | ms => ms.map (fun kv => (p, some kv.2)))

/-- The gap table: left-merge of the filtered pages with the inbound counts,
`fillna({"InboundLinks": 0})` and cast to int. -/
def computeGap (ps : List FPage) (ls : List FLink) : List GapRow :=
  (leftMergeCounts ps (inboundCounts ls)).map (fun pc => ⟨pc.1, pc.2.getD 0⟩)

/-- Derived characterization of the merged inbound count (proved against
`computeGap` below): number of filtered-link rows with this (non-null)
destination URL and a non-null anchor; 0 for a null page URL. -/
def inboundVal (ls : List FLink) (u : Option String) : Nat :=
  match u with
  | none => 0
  | some v => (ls.filter (fun l => l.toUrl == some v && l.anchor.isSome)).length

/-- `int(gap["InboundLinks"].max())` (0 for an empty table, as in
`dynamic_funnel_dashboard.py`). -/
def maxInbound (g : List GapRow) : Nat :=
  (g.map GapRow.inboundLinks).foldr max 0

/-- `gap[gap["InboundLinks"] <= threshold]`. -/
def thresholdGap (g : List GapRow) (k : Nat) : List GapRow :=
  g.filter (fun r => decide (r.inboundLinks ≤ k))

/-- Whether some filtered-link row would form a (necessarily non-null) group
key equal to `u` in `inboundCounts`. -/
def hasGroup (ls : List FLink) (u : Option String) : Bool :=
  ls.any (fun l => l.toUrl.isSome && l.toUrl == u)

/-- One side of `merge(pages_df[["URL","Funnel"]], left_on=..., right_on="URL",
how="left")`: the funnel stages of all page rows whose `URL` equals the key
(pandas matches null keys with each other), or a single null stage if no page
row matches. -/
def pandasLeftMatch (ps : List FPage) (u : Option String) : List (Option String) :=
  match ps.filter (fun p => p.url == u) with
  | [] => [none]
  | ms => ms.map FPage.funnel

/-- The `merged` frame of the Sankey tab, projected to
`(From_Funnel, To_Funnel)`: each link row is expanded by its `FromURL` matches
and then by its `ToURL` matches. -/
def sankeyMerged (ps : List FPage) (ls : List FLink) : List (Option String × Option String) :=
  ls.flatMap (fun l =>
    (pandasLeftMatch ps l.fromUrl).flatMap (fun f =>
      (pandasLeftMatch ps l.toUrl).map (fun t => (f, t))))

/-- Group-key extraction of `groupby(["From_Funnel","To_Funnel"])`: rows with a
null key on either side are dropped (pandas default `dropna=True`). -/
def bothStages (ft : Option String × Option String) : Option (String × String) :=
  match ft with
  | (some f, some t) => some (f, t)
  | _ => none

def sankeyPairs (ps : List FPage) (ls : List FLink) : List (String × String) :=
  (sankeyMerged ps ls).filterMap bothStages

/-- The transition table `sankey_df`:
`merged.groupby(["From_Funnel","To_Funnel"]).size().reset_index(name="Count")`.
(pandas sorts the group keys; we keep first-occurrence order — no claim
concerns the row order of this table.  The later `dropna` in `anchor-gap.py`
and the `isin(label_map)` filter in `dynamic_funnel_dashboard.py` drop nothing
further, since null-keyed rows were already dropped by the grouping.) -/
def sankeyDf (ps : List FPage) (ls : List FLink) : List (String × String × Nat) :=
  (sankeyPairs ps ls).dedup.map
    (fun k => (k.1, k.2, (sankeyPairs ps ls).countP (fun x => decide (x = k))))

/-- First funnel stage attached to a URL key by the left joins: the stage of
the first page row whose `URL` equals the key (unique if page URLs are
pairwise distinct). -/
def stageOf (ps : List FPage) (u : Option String) : Option String :=
  match ps.find? (fun p => p.url == u) with
  | some p => p.funnel
  | none => none

/-- A link row whose two endpoints both equal (pandas null-matching equality)
the `URL` of some filtered page row carrying a non-null funnel stage. -/
def resolvesKnown (ps : List FPage) (l : FLink) : Bool :=
  ps.any (fun p => p.url == l.fromUrl && p.funnel.isSome) &&
  ps.any (fun p => p.url == l.toUrl && p.funnel.isSome)

/-- Lexicographic order on code points (Python's string order). -/
def charListLe : List Char → List Char → Bool
  | [], _ => true
  | _ :: _, [] => false
  | a :: as, b :: bs =>
    if a.toNat < b.toNat then true
    else if b.toNat < a.toNat then false
    else charListLe as bs

def strLe (a b : String) : Bool :=
  charListLe a.data b.data

/-- Insertion sort, modelling Python's `sorted` on strings (ordinal order). -/
def insertSorted (x : String) : List String → List String
  | [] => [x]
  | y :: ys => if strLe x y then x :: y :: ys else y :: insertSorted x ys

def sortStrings (xs : List String) : List String :=
  xs.foldr insertSorted []

/-- `sorted(SELECT DISTINCT col FROM t WHERE col IS NOT NULL)`. -/
def distinctSorted (xs : List (Option String)) : List String :=
  sortStrings (xs.filterMap id).dedup

def funnelList (ps : List PageRow) : List String :=
  distinctSorted (ps.map PageRow.funnel)

def geoList (ps : List PageRow) : List String :=
  distinctSorted (ps.map PageRow.geo)

def positionList (ls : List LinkRow) : List String :=
  distinctSorted (ls.map LinkRow.position)

/-- First-load filter defaults of `dynamic_funnel_dashboard.py` (steps 3-4) and
`anchor-gap.py` (section 5): `(funnel_list, geo_list, position_list)`. -/
def dashboardDefaults (ps : List PageRow) (ls : List LinkRow) :
    List String × List String × List String :=
  (funnelList ps, geoList ps, positionList ls)

/-- First-load filter defaults of `gap_analysis_app.py`: funnel and geo default
to the full lists, but the link-position multiselect defaults to the fixed
list `["Content"]`. -/
def gapAppDefaults (ps : List PageRow) (ls : List LinkRow) :
    List String × List String × List String :=
  (funnelList ps, geoList ps, ["Content"])

/-- A raw uploaded table as created by `CREATE TABLE ... AS SELECT *`: named
columns and rows of nullable cells.  No column validation happens at load. -/
structure RawTable where
  cols : List String
  rows : List (List (Option String))
deriving DecidableEq

/-- Index of a named column in a header list. -/
def colIdx (cols : List String) (c : String) : Option Nat :=
  match cols with
  | [] => none
  | x :: xs => if x == c then some 0 else (colIdx xs c).map (fun i => i + 1)

/-- Reading one column: DuckDB reports a binder error when the column does not
exist in the table. -/
def getCol (t : RawTable) (c : String) : Except String (List (Option String)) :=
  match colIdx t.cols c with
  | none => .error ("no column named " ++ c)
  | some i => .ok (t.rows.map (fun r => r.getD i none))

/-- `SELECT DISTINCT c FROM t WHERE c IS NOT NULL`, sorted by the caller. -/
def distinctCol (t : RawTable) (c : String) : Except String (List String) :=
  (getCol t c).map distinctSorted

/-- The per-session DuckDB state: the currently installed `(pages, anchors)`
tables, if any upload happened yet. -/
abbrev Session := Option (RawTable × RawTable)

/-- `load_tables`: `DROP TABLE IF EXISTS pages/anchors` followed by
`CREATE TABLE ... AS SELECT *` — the new tables replace the old ones
unconditionally, before any column of the new data is inspected. -/
def load_tables : Session → RawTable → RawTable → Session :=
  fun _ p a => some (p, a)

/-- The upload path of `dynamic_funnel_dashboard.py` steps 2-3 (same order in
`anchor-gap.py` sections 1 and 4): load both tables, then build the three
filter picklists; the first failing `SELECT DISTINCT` aborts the run
(`st.stop`) with the session left holding the freshly created tables. -/
def ingest (s : Session) (p a : RawTable) :
    Session × Except String (List String × List String × List String) :=
  (load_tables s p a,
    do
      let f ← distinctCol p "Funnel"
      let g ← distinctCol p "Geo"
      let pos ← distinctCol a "Link Position"
      pure (f, g, pos))

def isErrorResult {α : Type} (e : Except String α) : Bool :=
  match e with
  | .error _ => true
  | .ok _ => false

/-- The filter path of `gap_analysis_app.py` (lines 50-68) has no
empty-selection guard: `to_sql_str_list([])` interpolates `IN ()` into the
query, which DuckDB's Postgres-derived parser rejects, so
`con.execute(pages_sql)` raises instead of returning a relation (there is no
surrounding handler; the run crashes).  The parser exception is modelled as an
`Except.error`; a non-empty selection runs the same query as the other
variants. -/
def gapAppFilterPages (sf sg : List String) (ps : List PageRow) :
    Except String (List FPage) :=
  if sf.isEmpty || sg.isEmpty then .error "Parser Error: syntax error in empty IN list"
  else .ok (filterPages sf sg ps)

/-- The anchors query of `gap_analysis_app.py`, likewise unguarded. -/
def gapAppFilterLinks (sp : List String) (ls : List LinkRow) :
    Except String (List FLink) :=
  if sp.isEmpty then .error "Parser Error: syntax error in empty IN list"
  else .ok (filterLinks sp ls)

/-- The two-page, one-link dataset of the spec's end-to-end example (§8.7). -/
def exPages : List PageRow :=
  [⟨some "https://a.com/x/", some "TOF", some "T1", some "US"⟩,
   ⟨some "https://a.com/y", some "MOF", some "T2", some "US"⟩]

def exLinks : List LinkRow :=
  [⟨some "https://a.com/x", some "https://a.com/y", some "click", some "Content"⟩]

/-- The example pipeline with every filter set to all observed values. -/
def exFiltered : List FPage × List FLink :=
  getFilteredData (funnelList exPages) (geoList exPages) (positionList exLinks)
    exPages exLinks

/-- Concrete filtered data for claim C3: one page, one inbound link whose
`Anchor` cell is empty (pandas reads it as `NaN`). -/
def c3Pages : List FPage :=
  [⟨some "https://a.com/y", some "MOF", some "T2", some "US", some "https://a.com/y"⟩]

def c3Links : List FLink :=
  [⟨some "https://a.com/x", some "https://a.com/y", none, some "Content",
    some "https://a.com/x", some "https://a.com/y"⟩]

/-- Concrete filtered data for claim C4: the source page row is duplicated
(the spec allows duplicate pages to pass through). -/
def c4Pages : List FPage :=
  [⟨some "https://a.com/x", some "TOF", some "T1", some "US", some "https://a.com/x"⟩,
   ⟨some "https://a.com/x", some "TOF", some "T1", some "US", some "https://a.com/x"⟩,
   ⟨some "https://a.com/y", some "MOF", some "T2", some "US", some "https://a.com/y"⟩]

def c4Links : List FLink :=
  [⟨some "https://a.com/x", some "https://a.com/y", some "click", some "Content",
    some "https://a.com/x", some "https://a.com/y"⟩]

/-- Like `c4Pages` but with pairwise-distinct URLs. -/
def c4wPages : List FPage :=
  [⟨some "https://a.com/x", some "TOF", some "T1", some "US", some "https://a.com/x"⟩,
   ⟨some "https://a.com/y", some "MOF", some "T2", some "US", some "https://a.com/y"⟩]

/-- Concrete session data for claim C7: a previously loaded dataset and a new
upload whose pages table lacks the required `Funnel` column. -/
def c7OldPages : RawTable :=
  ⟨["Address", "Funnel", "Topic", "Geo"],
   [[some "https://old.com/a", some "TOF", some "T1", some "US"]]⟩

def c7OldAnchors : RawTable :=
  ⟨["Source", "Destination", "Anchor", "Link Position"], []⟩

def c7NewPages : RawTable :=
  ⟨["Address"], [[some "https://new.com/b"]]⟩

def c7NewAnchors : RawTable :=
  ⟨["Source", "Destination", "Anchor", "Link Position"], []⟩

def c7Prior : Session := some (c7OldPages, c7OldAnchors)

/-- Concrete anchors data for claim C8: the observed link positions are
`["Footer"]`, not `["Content"]`. -/
def c8Links : List LinkRow :=
  [⟨some "https://a.com/x", some "https://a.com/y", some "t", some "Footer"⟩]

/-- Concrete raw data for claim C10: one page row has an empty `Address`
(hence a null `URL`), and the only link has an empty `Destination`
(hence a null `ToURL`). -/
def c10Pages : List PageRow :=
  [⟨some "https://a.com/x", some "TOF", some "T1", some "US"⟩,
   ⟨none, some "MOF", some "T2", some "US"⟩]

def c10Links : List LinkRow :=
  [⟨some "https://a.com/x", none, some "click", some "Content"⟩]

def c10Filtered : List FPage × List FLink :=
  getFilteredData (funnelList c10Pages) (geoList c10Pages) (positionList c10Links)
    c10Pages c10Links

/-- The example gap table (used to instantiate threshold claims). -/
def exGap : List GapRow :=
  computeGap exFiltered.1 exFiltered.2

theorem char_toNat_ofNat_valid {n : Nat} (h : n.isValidChar) : (Char.ofNat n).toNat = n := by
  simp only [Char.ofNat, dif_pos h]
  rfl

theorem toLower_toNat_of {c : Char} (h : 65 ≤ c.toNat ∧ c.toNat ≤ 90) :
    (Char.toLower c).toNat = c.toNat + 32 := by
  simp only [Char.toLower]
  rw [if_pos h]
  exact char_toNat_ofNat_valid (Or.inl (by omega))

theorem toLower_eq_self {c : Char} (h : ¬(65 ≤ c.toNat ∧ c.toNat ≤ 90)) :
    Char.toLower c = c := by
  simp only [Char.toLower]
  rw [if_neg h]

theorem toLower_beq_slash (c : Char) : (Char.toLower c == '/') = (c == '/') := by
  by_cases h : 65 ≤ c.toNat ∧ c.toNat ≤ 90
  · have h1 : Char.toLower c ≠ '/' := by
      intro he
      have h2 := congrArg Char.toNat he
      rw [toLower_toNat_of h] at h2
      have h47 : Char.toNat '/' = 47 := rfl
      rw [h47] at h2
      omega
    have h2 : c ≠ '/' := by
      intro he
      subst he
      exact absurd h (by decide)
    rw [beq_eq_false_iff_ne.mpr h1, beq_eq_false_iff_ne.mpr h2]
  · rw [toLower_eq_self h]

theorem toLower_toLower (c : Char) : Char.toLower (Char.toLower c) = Char.toLower c := by
  by_cases h : 65 ≤ c.toNat ∧ c.toNat ≤ 90
  · apply toLower_eq_self
    rw [toLower_toNat_of h]
    omega
  · rw [toLower_eq_self h, toLower_eq_self h]

theorem dropWhile_map_toLower (l : List Char) :
    (l.map Char.toLower).dropWhile (fun c => c == '/') =
      (l.dropWhile (fun c => c == '/')).map Char.toLower := by
  induction l with
  | nil => rfl
  | cons a l ih =>
    simp only [List.map_cons, List.dropWhile_cons, toLower_beq_slash]
    split
    · exact ih
    · rfl

theorem dropWhile_dropWhile_self (p : Char → Bool) (l : List Char) :
    (l.dropWhile p).dropWhile p = l.dropWhile p := by
  induction l with
  | nil => rfl
  | cons a l ih =>
    by_cases h : p a = true
    · rw [List.dropWhile_cons, if_pos h]
      exact ih
    · rw [List.dropWhile_cons, if_neg h, List.dropWhile_cons, if_neg h]

theorem normalize_eq_normalizeSpec (s : String) : normalize s = normalizeSpec s := by
  show String.mk (((s.data.reverse.dropWhile (fun c => c == '/')).reverse).map Char.toLower)
      = String.mk ((((s.data.map Char.toLower).reverse).dropWhile (fun c => c == '/')).reverse)
  rw [← List.map_reverse, dropWhile_map_toLower, ← List.map_reverse]

theorem rtrimSlashes_idem (s : String) : rtrimSlashes (rtrimSlashes s) = rtrimSlashes s := by
  show String.mk ((((s.data.reverse.dropWhile (fun c => c == '/')).reverse).reverse.dropWhile
        (fun c => c == '/')).reverse)
      = String.mk ((s.data.reverse.dropWhile (fun c => c == '/')).reverse)
  rw [List.reverse_reverse, dropWhile_dropWhile_self]

theorem lowerString_idem (s : String) : lowerString (lowerString s) = lowerString s := by
  show String.mk ((s.data.map Char.toLower).map Char.toLower) = String.mk (s.data.map Char.toLower)
  rw [List.map_map]
  exact congrArg String.mk (List.map_congr_left (fun c _ => toLower_toLower c))

theorem normalize_idem (s : String) : normalize (normalize s) = normalize s := by
  calc normalize (normalize s)
      = lowerString (normalizeSpec (rtrimSlashes s)) := rfl
    _ = lowerString (normalize (rtrimSlashes s)) := by rw [← normalize_eq_normalizeSpec]
    _ = lowerString (lowerString (rtrimSlashes (rtrimSlashes s))) := rfl
    _ = lowerString (lowerString (rtrimSlashes s)) := by rw [rtrimSlashes_idem]
    _ = lowerString (rtrimSlashes s) := lowerString_idem _
    _ = normalize s := rfl

theorem filter_map_pair_keys (f : String → Nat) (keys : List String) (hk : keys.Nodup) (v : String) :
    (keys.map (fun u => (u, f u))).filter (fun kv => kv.1 == v) =
      if v ∈ keys then [(v, f v)] else [] := by
  induction keys with
  | nil => simp
  | cons k ks ih =>
    have hk2 := List.nodup_cons.mp hk
    by_cases hv : k = v
    · subst hv
      have htail : (ks.map (fun u => (u, f u))).filter (fun kv => kv.1 == k) = [] := by
        rw [ih hk2.2, if_neg hk2.1]
      simp [List.filter_cons, htail]
    · simp only [List.map_cons, List.filter_cons, List.mem_cons]
      have hcond : (((k, f k).1 == v)) = false := by
        simp [hv]
      rw [hcond]
      simp only [Bool.false_eq_true, if_false]
      rw [ih hk2.2]
      have : (v = k ∨ v ∈ ks) ↔ v ∈ ks := by
        constructor
        · intro h
          rcases h with h | h
          · exact absurd h.symm hv
          · exact h
        · exact Or.inr
      simp [this]

theorem counts_filter_none (counts : List (String × Nat)) :
    counts.filter (fun kv => some kv.1 == (none : Option String)) = [] := by
  apply List.filter_eq_nil_iff.mpr
  intro kv _
  simp

theorem filter_toUrl_nil {ls : List FLink} {v : String}
    (h : v ∉ (ls.filterMap FLink.toUrl).dedup) :
    ls.filter (fun l => l.toUrl == some v && l.anchor.isSome) = [] := by
  apply List.filter_eq_nil_iff.mpr
  intro l hl hcontra
  apply h
  rw [List.mem_dedup]
  have h1 : l.toUrl = some v := by
    have hb := (Bool.and_eq_true _ _).mp hcontra
    exact beq_iff_eq.mp hb.1
  exact List.mem_filterMap.mpr ⟨l, hl, h1⟩

theorem computeGap_cons (p : FPage) (ps : List FPage) (ls : List FLink) :
    computeGap (p :: ps) ls = ⟨p, inboundVal ls p.url⟩ :: computeGap ps ls := by
  unfold computeGap leftMergeCounts
  rw [List.flatMap_cons, List.map_append, ← List.singleton_append]
  cases hu : p.url with
  | none =>
    rw [counts_filter_none]
    rfl
  | some v =>
    have hfc : (inboundCounts ls).filter (fun kv => some kv.1 == some v) =
        (inboundCounts ls).filter (fun kv => kv.1 == v) := by
      apply List.filter_congr
      intro kv _
      rfl
    rw [hfc]
    unfold inboundCounts
    rw [filter_map_pair_keys _ _ (List.nodup_dedup _) v]
    by_cases hmem : v ∈ (ls.filterMap FLink.toUrl).dedup
    · rw [if_pos hmem]
      rfl
    · rw [if_neg hmem]
      have h0 : inboundVal ls (some v) = 0 := by
        show (ls.filter (fun l => l.toUrl == some v && l.anchor.isSome)).length = 0
        rw [filter_toUrl_nil hmem]
        rfl
      rw [h0]
      rfl

theorem computeGap_eq (ps : List FPage) (ls : List FLink) :
    computeGap ps ls = ps.map (fun p => ⟨p, inboundVal ls p.url⟩) := by
  induction ps with
  | nil => rfl
  | cons p ps ih =>
    rw [computeGap_cons, ih, List.map_cons]

theorem sum_indicator_nodup {α : Type} [DecidableEq α] (l : List α) (hl : l.Nodup) (a : α) :
    (l.map (fun k => if a = k then 1 else 0)).sum = if a ∈ l then 1 else 0 := by
  induction l with
  | nil => simp
  | cons b l ih =>
    have hb := List.nodup_cons.mp hl
    rw [List.map_cons, List.sum_cons, ih hb.2]
    by_cases hab : a = b
    · subst hab
      rw [if_pos rfl, if_neg hb.1, if_pos (List.mem_cons_self a l)]
    · rw [if_neg hab]
      by_cases hmem : a ∈ l
      · simp [hmem, List.mem_cons, hab]
      · simp [hmem, List.mem_cons, hab]

theorem sum_countP_dedup {α : Type} [DecidableEq α] (l : List α) :
    (l.dedup.map (fun k => l.countP (fun x => decide (x = k)))).sum = l.length := by
  induction l with
  | nil => simp
  | cons a l ih =>
    have hpoint : ∀ k, (a :: l).countP (fun x => decide (x = k)) =
        l.countP (fun x => decide (x = k)) + (if a = k then 1 else 0) := by
      intro k
      rw [List.countP_cons]
      by_cases h : a = k
      · simp [h]
      · simp [h]
    by_cases hmem : a ∈ l
    · rw [List.dedup_cons_of_mem hmem]
      calc (l.dedup.map (fun k => (a :: l).countP (fun x => decide (x = k)))).sum
          = (l.dedup.map (fun k =>
              l.countP (fun x => decide (x = k)) + (if a = k then 1 else 0))).sum := by
            exact congrArg _ (List.map_congr_left (fun k _ => hpoint k))
        _ = (l.dedup.map (fun k => l.countP (fun x => decide (x = k)))).sum +
            (l.dedup.map (fun k => if a = k then 1 else 0)).sum := by
            rw [List.sum_map_add]
        _ = l.length + 1 := by
            rw [ih, sum_indicator_nodup l.dedup (List.nodup_dedup l) a,
              if_pos (List.mem_dedup.mpr hmem)]
        _ = (a :: l).length := by
            rw [List.length_cons]
    · rw [List.dedup_cons_of_not_mem hmem, List.map_cons, List.sum_cons]
      have hzero : l.countP (fun x => decide (x = a)) = 0 := by
        apply List.countP_eq_zero.mpr
        intro x hx
        simp only [decide_eq_true_eq]
        intro hxa
        exact hmem (hxa ▸ hx)
      have hhead : (a :: l).countP (fun x => decide (x = a)) = 1 := by
        rw [hpoint a, hzero, if_pos rfl]
      have htail : (l.dedup.map (fun k => (a :: l).countP (fun x => decide (x = k)))).sum
          = l.length := by
        calc (l.dedup.map (fun k => (a :: l).countP (fun x => decide (x = k)))).sum
            = (l.dedup.map (fun k =>
                l.countP (fun x => decide (x = k)) + (if a = k then 1 else 0))).sum := by
              exact congrArg _ (List.map_congr_left (fun k _ => hpoint k))
          _ = (l.dedup.map (fun k => l.countP (fun x => decide (x = k)))).sum +
              (l.dedup.map (fun k => if a = k then 1 else 0)).sum := by
              rw [List.sum_map_add]
          _ = l.length := by
              rw [ih, sum_indicator_nodup l.dedup (List.nodup_dedup l) a,
                if_neg (fun hc => hmem (List.mem_dedup.mp hc))]
              omega
      rw [hhead, htail, List.length_cons]
      omega

theorem pandasLeftMatch_eq (ps : List FPage) (h2 : (ps.map FPage.url).Nodup)
    (u : Option String) : pandasLeftMatch ps u = [stageOf ps u] := by
  induction ps with
  | nil => rfl
  | cons p ps ih =>
    rw [List.map_cons, List.nodup_cons] at h2
    unfold pandasLeftMatch stageOf
    rw [List.filter_cons, List.find?_cons]
    by_cases hc : (p.url == u) = true
    · rw [if_pos hc, hc]
      have hnil : ps.filter (fun q => q.url == u) = [] := by
        apply List.filter_eq_nil_iff.mpr
        intro q hq hqc
        apply h2.1
        rw [beq_iff_eq.mp hc, ← beq_iff_eq.mp hqc]
        exact List.mem_map_of_mem _ hq
      rw [hnil]
      rfl
    · have hcf : (p.url == u) = false := by
        cases hb : (p.url == u) with
        | true => exact absurd hb hc
        | false => rfl
      rw [if_neg hc, hcf]
      have hrec := ih h2.2
      unfold pandasLeftMatch stageOf at hrec
      exact hrec

theorem sankeyMerged_eq (ps : List FPage) (ls : List FLink)
    (h2 : (ps.map FPage.url).Nodup) :
    sankeyMerged ps ls = ls.map (fun l => (stageOf ps l.fromUrl, stageOf ps l.toUrl)) := by
  unfold sankeyMerged
  induction ls with
  | nil => rfl
  | cons l ls ih =>
    rw [List.flatMap_cons, pandasLeftMatch_eq ps h2 l.fromUrl,
      pandasLeftMatch_eq ps h2 l.toUrl, ih, List.map_cons]
    rfl

theorem length_filterMap_bothStages (l : List (Option String × Option String)) :
    (l.filterMap bothStages).length = l.countP (fun ft => ft.1.isSome && ft.2.isSome) := by
  induction l with
  | nil => rfl
  | cons a l ih =>
    rcases a with ⟨f, t⟩
    cases f <;> cases t <;> simp [List.filterMap_cons, List.countP_cons, bothStages, ih]

theorem stageOf_isSome_eq (ps : List FPage) (h2 : (ps.map FPage.url).Nodup)
    (u : Option String) :
    (stageOf ps u).isSome = ps.any (fun p => p.url == u && p.funnel.isSome) := by
  induction ps with
  | nil => rfl
  | cons p ps ih =>
    rw [List.map_cons, List.nodup_cons] at h2
    unfold stageOf
    rw [List.find?_cons, List.any_cons]
    by_cases hc : (p.url == u) = true
    · have hnone : ps.any (fun q => q.url == u && q.funnel.isSome) = false := by
        rw [List.any_eq_false]
        intro q hq hqc
        apply h2.1
        have h1 := (Bool.and_eq_true _ _).mp hqc
        rw [beq_iff_eq.mp hc, ← beq_iff_eq.mp h1.1]
        exact List.mem_map_of_mem _ hq
      rw [hc, hnone, Bool.true_and, Bool.or_false]
    · have hcf : (p.url == u) = false := by
        cases hb : (p.url == u) with
        | true => exact absurd hb hc
        | false => rfl
      rw [hcf, Bool.false_and, Bool.false_or]
      have hrec := ih h2.2
      unfold stageOf at hrec
      exact hrec

theorem length_filter_le_of_imp {α : Type} (l : List α) (p q : α → Bool)
    (h : ∀ a, p a = true → q a = true) :
    (l.filter p).length ≤ (l.filter q).length := by
  induction l with
  | nil => exact Nat.le_refl 0
  | cons a l ih =>
    rw [List.filter_cons, List.filter_cons]
    by_cases hp : p a = true
    · rw [if_pos hp, if_pos (h a hp)]
      simpa using ih
    · rw [if_neg hp]
      by_cases hq : q a = true
      · rw [if_pos hq]
        exact Nat.le_trans ih (Nat.le_succ _)
      · rw [if_neg hq]
        exact ih

theorem le_maxInbound (g : List GapRow) : ∀ r ∈ g, r.inboundLinks ≤ maxInbound g := by
  induction g with
  | nil =>
    intro r hr
    exact absurd hr (List.not_mem_nil r)
  | cons a g ih =>
    intro r hr
    unfold maxInbound
    rw [List.map_cons, List.foldr_cons]
    rcases List.mem_cons.mp hr with h | h
    · rw [h]
      exact Nat.le_max_left _ _
    · have hrec := ih r h
      unfold maxInbound at hrec
      exact Nat.le_trans hrec (Nat.le_max_right _ _)

theorem mem_insertSorted (x a : String) (l : List String) :
    a ∈ insertSorted x l ↔ a = x ∨ a ∈ l := by
  induction l with
  | nil => simp [insertSorted]
  | cons y ys ih =>
    unfold insertSorted
    by_cases h : strLe x y = true
    · rw [if_pos h]
      simp [List.mem_cons]
    · rw [if_neg h]
      simp only [List.mem_cons, ih]
      tauto

theorem mem_sortStrings (xs : List String) (a : String) : a ∈ sortStrings xs ↔ a ∈ xs := by
  induction xs with
  | nil => simp [sortStrings]
  | cons x xs ih =>
    unfold sortStrings
    rw [List.foldr_cons, mem_insertSorted]
    unfold sortStrings at ih
    rw [ih, List.mem_cons]

theorem mem_distinctSorted (xs : List (Option String)) (a : String) :
    a ∈ distinctSorted xs ↔ some a ∈ xs := by
  unfold distinctSorted
  rw [mem_sortStrings, List.mem_dedup, List.mem_filterMap]
  constructor
  · rintro ⟨b, hb, hba⟩
    exact hba ▸ hb
  · intro h
    exact ⟨some a, h, rfl⟩

theorem colIdx_none {cols : List String} {c : String} (h : ¬ c ∈ cols) :
    colIdx cols c = none := by
  induction cols with
  | nil => rfl
  | cons a l ih =>
    have h1 : ¬((a == c) = true) := by
      intro hb
      exact h (List.mem_cons.mpr (Or.inl (beq_iff_eq.mp hb).symm))
    have h2 : ¬ c ∈ l := fun hc => h (List.mem_cons.mpr (Or.inr hc))
    unfold colIdx
    rw [if_neg h1, ih h2]
    rfl

theorem inboundVal_filter_toUrl (ls : List FLink) (u : Option String) :
    inboundVal (ls.filter (fun l => l.toUrl.isSome)) u = inboundVal ls u := by
  cases u with
  | none => rfl
  | some v =>
    show ((ls.filter (fun l => l.toUrl.isSome)).filter
        (fun l => l.toUrl == some v && l.anchor.isSome)).length =
      (ls.filter (fun l => l.toUrl == some v && l.anchor.isSome)).length
    rw [List.filter_filter]
    apply congrArg List.length
    apply List.filter_congr
    intro l _
    cases hl : l.toUrl with
    | none => simp
    | some w => simp

theorem bothStages_none (f : Option String) : bothStages (f, none) = none := by
  cases f <;> rfl

theorem sankeyPairs_filter_toUrl (ps : List FPage) (ls : List FLink)
    (h : ∀ p ∈ ps, p.url.isSome = true) :
    sankeyPairs ps (ls.filter (fun l => l.toUrl.isSome)) = sankeyPairs ps ls := by
  unfold sankeyPairs sankeyMerged
  induction ls with
  | nil => rfl
  | cons l ls ih =>
    rw [List.filter_cons]
    by_cases hl : l.toUrl.isSome = true
    · rw [if_pos hl, List.flatMap_cons, List.flatMap_cons, List.filterMap_append,
        List.filterMap_append, ih]
    · rw [if_neg hl, ih, List.flatMap_cons, List.filterMap_append]
      have hnone : l.toUrl = none := by
        cases hu : l.toUrl with
        | none => rfl
        | some w =>
          rw [hu] at hl
          exact absurd rfl hl
      have hmatch : pandasLeftMatch ps l.toUrl = [none] := by
        unfold pandasLeftMatch
        rw [hnone]
        have hfil : ps.filter (fun p => p.url == (none : Option String)) = [] := by
          apply List.filter_eq_nil_iff.mpr
          intro p hp hpc
          have hs := h p hp
          cases hpu : p.url with
          | none =>
            rw [hpu] at hs
            exact absurd hs (by simp)
          | some w =>
            rw [hpu] at hpc
            exact absurd hpc (by simp)
        rw [hfil]
      rw [hmatch]
      have hblocknil : List.filterMap bothStages
          ((pandasLeftMatch ps l.fromUrl).flatMap
            (fun f => List.map (fun t => (f, t)) [none])) = [] := by
        apply List.filterMap_eq_nil_iff.mpr
        intro a ha
        rcases List.mem_flatMap.mp ha with ⟨f, _, haf⟩
        simp only [List.map_cons, List.map_nil] at haf
        have haeq := List.mem_singleton.mp haf
        rw [haeq]
        exact bothStages_none f
      rw [hblocknil, List.nil_append]

/-- Claim C1 counterexample: in `gap_analysis_app.py` an empty funnel (or geo,
or position) selection does not yield an empty relation — the unguarded SQL
contains `IN ()` and the query errors. -/
theorem c1_counterexample :
    gapAppFilterPages [] (geoList exPages) exPages ≠ Except.ok [] ∧
    gapAppFilterLinks [] exLinks ≠ Except.ok [] := by
  constructor
  · intro h
    have h2 : isErrorResult (Except.ok ([] : List FPage)) = true := by
      rw [← h]
      decide
    simp [isErrorResult] at h2
  · intro h
    have h2 : isErrorResult (Except.ok ([] : List FLink)) = true := by
      rw [← h]
      decide
    simp [isErrorResult] at h2

/-- Claim C1 (amended): in `anchor-gap.py` and `dynamic_funnel_dashboard.py`
an empty funnel or geo selection yields empty page and link relations (and
empty gap and transition aggregates), and an empty link-position selection
yields an empty link relation; in `gap_analysis_app.py` an empty selection
instead makes the query error out.  In no variant is an empty selection
treated as a wildcard. -/
theorem c1_fail_closed_amended (sf sg sp : List String) (ps : List PageRow)
    (ls : List LinkRow) :
    ((sf = [] ∨ sg = []) →
      getFilteredData sf sg sp ps ls = ([], []) ∧
      computeGap (getFilteredData sf sg sp ps ls).1 (getFilteredData sf sg sp ps ls).2 = [] ∧
      sankeyDf (getFilteredData sf sg sp ps ls).1 (getFilteredData sf sg sp ps ls).2 = []) ∧
    (sp = [] → (getFilteredData sf sg sp ps ls).2 = []) ∧
    ((sf = [] ∨ sg = []) → isErrorResult (gapAppFilterPages sf sg ps) = true) ∧
    (sp = [] → isErrorResult (gapAppFilterLinks sp ls) = true) := by
  have hemp : ∀ h : sf = [] ∨ sg = [], (sf.isEmpty || sg.isEmpty) = true := by
    intro h
    rcases h with h | h <;> simp [h]
  refine ⟨?_, ?_, ?_, ?_⟩
  · intro h
    have hg : getFilteredData sf sg sp ps ls = ([], []) := by
      unfold getFilteredData
      rw [if_pos (hemp h)]
    refine ⟨hg, ?_, ?_⟩
    · rw [hg]
      rfl
    · rw [hg]
      rfl
  · intro h
    have hsp : sp.isEmpty = true := by simp [h]
    unfold getFilteredData
    by_cases he : (sf.isEmpty || sg.isEmpty) = true
    · rw [if_pos he]
    · rw [if_neg he, if_pos hsp]
  · intro h
    unfold gapAppFilterPages
    rw [if_pos (hemp h)]
    rfl
  · intro h
    have hsp : sp.isEmpty = true := by simp [h]
    unfold gapAppFilterLinks
    rw [if_pos hsp]
    rfl

/-- Claim C1 witness at the example dataset, covering all four cases. -/
theorem c1_fail_closed_amended_witness :
    getFilteredData [] ["US"] ["Content"] exPages exLinks = ([], []) ∧
    (getFilteredData ["MOF", "TOF"] ["US"] [] exPages exLinks).2 = [] ∧
    isErrorResult (gapAppFilterPages [] ["US"] exPages) = true ∧
    isErrorResult (gapAppFilterLinks [] exLinks) = true :=
  ⟨((c1_fail_closed_amended [] ["US"] ["Content"] exPages exLinks).1 (Or.inl rfl)).1,
    (c1_fail_closed_amended ["MOF", "TOF"] ["US"] [] exPages exLinks).2.1 rfl,
    (c1_fail_closed_amended [] ["US"] ["Content"] exPages exLinks).2.2.1 (Or.inl rfl),
    (c1_fail_closed_amended ["MOF", "TOF"] ["US"] [] exPages exLinks).2.2.2 rfl⟩

/-- Claim C2: every filtered page row appears exactly once in the gap table
(in order, with its multiplicity), and a page with no matching link group gets
`InboundLinks = 0`; `inboundLinks : Nat`, so it is a non-negative integer. -/
theorem c2_gap_completeness (ps : List FPage) (ls : List FLink) :
    (computeGap ps ls).map GapRow.page = ps ∧
    (∀ r ∈ computeGap ps ls, hasGroup ls r.page.url = false → r.inboundLinks = 0) := by
  constructor
  · rw [computeGap_eq, List.map_map]
    show ps.map (fun p => p) = ps
    simp
  · intro r hr h
    rw [computeGap_eq] at hr
    rcases List.mem_map.mp hr with ⟨p, hp, hpr⟩
    subst hpr
    show inboundVal ls p.url = 0
    have h2 : hasGroup ls p.url = false := h
    cases hu : p.url with
    | none => rfl
    | some v =>
      show (ls.filter (fun l => l.toUrl == some v && l.anchor.isSome)).length = 0
      rw [hu] at h2
      have hnil : ls.filter (fun l => l.toUrl == some v && l.anchor.isSome) = [] := by
        apply List.filter_eq_nil_iff.mpr
        intro l hl hc
        have h1 := (Bool.and_eq_true _ _).mp hc
        have hfalse := List.any_eq_false.mp h2 l hl
        apply hfalse
        rw [Bool.and_eq_true]
        constructor
        · rw [beq_iff_eq.mp h1.1]
          rfl
        · exact h1.1
      rw [hnil]
      rfl

/-- Claim C2 witness at the example dataset. -/
theorem c2_gap_completeness_witness :
    (computeGap exFiltered.1 exFiltered.2).map GapRow.page = exFiltered.1 ∧
    (∀ r ∈ computeGap exFiltered.1 exFiltered.2,
      hasGroup exFiltered.2 r.page.url = false → r.inboundLinks = 0) :=
  c2_gap_completeness exFiltered.1 exFiltered.2

/-- Claim C3 counterexample: for a link whose `Anchor` cell is empty (null),
the reported `InboundLinks` (0) differs from the number of filtered link rows
whose normalized destination equals the page URL (1): the `.count()` on the
`Anchor Text` column skips null anchors. -/
theorem c3_counterexample :
    (computeGap c3Pages c3Links).map GapRow.inboundLinks ≠
      c3Pages.map (fun p => c3Links.countP (fun l => l.toUrl == p.url)) := by
  decide

/-- Claim C3 (amended): a page row's `InboundLinks` equals the number of
filtered link rows whose normalized destination equals the page's normalized
URL and whose anchor text is non-null. -/
theorem c3_inbound_count_amended (ps : List FPage) (ls : List FLink) :
    ∀ r ∈ computeGap ps ls, ∀ u : String, r.page.url = some u →
      r.inboundLinks = ls.countP (fun l => l.toUrl == some u && l.anchor.isSome) := by
  intro r hr u hu
  rw [computeGap_eq] at hr
  rcases List.mem_map.mp hr with ⟨p, hp, hpr⟩
  subst hpr
  show inboundVal ls p.url = ls.countP (fun l => l.toUrl == some u && l.anchor.isSome)
  have hpu : p.url = some u := hu
  rw [hpu]
  show (ls.filter (fun l => l.toUrl == some u && l.anchor.isSome)).length = _
  rw [List.countP_eq_length_filter]

/-- Claim C3 witness: the amended count at the concrete dataset. -/
theorem c3_inbound_count_amended_witness :
    (⟨⟨some "https://a.com/y", some "MOF", some "T2", some "US",
        some "https://a.com/y"⟩, 0⟩ : GapRow).inboundLinks =
      c3Links.countP (fun l => l.toUrl == some "https://a.com/y" && l.anchor.isSome) :=
  c3_inbound_count_amended c3Pages c3Links
    ⟨⟨some "https://a.com/y", some "MOF", some "T2", some "US", some "https://a.com/y"⟩, 0⟩
    (by decide) "https://a.com/y" (by decide)

/-- Claim C4 counterexample: with a duplicated source page row (duplicates are
allowed to pass through), the transition-count total (2) exceeds the number of
link rows whose endpoints both resolve to a page with a known stage (1). -/
theorem c4_counterexample :
    ((sankeyDf c4Pages c4Links).map (fun r => r.2.2)).sum ≠
      c4Links.countP (resolvesKnown c4Pages) := by
  decide

/-- Claim C4 (amended): when the filtered page rows carry pairwise-distinct
URL values, the sum of `Count` over the transition table (whose rows all have
non-null stages, null-keyed groups having been dropped) equals the number of
filtered-link rows both of whose endpoint URLs equal (with pandas null-matching
equality) the URL of a page row with a non-null funnel stage. -/
theorem c4_transition_sum_amended (ps : List FPage) (ls : List FLink)
    (h2 : (ps.map FPage.url).Nodup) :
    ((sankeyDf ps ls).map (fun r => r.2.2)).sum = ls.countP (resolvesKnown ps) := by
  unfold sankeyDf
  rw [List.map_map]
  show ((sankeyPairs ps ls).dedup.map
      (fun k => (sankeyPairs ps ls).countP (fun x => decide (x = k)))).sum = _
  rw [sum_countP_dedup]
  unfold sankeyPairs
  rw [length_filterMap_bothStages, sankeyMerged_eq ps ls h2, List.countP_map]
  apply List.countP_congr
  intro l _
  show ((stageOf ps l.fromUrl).isSome && (stageOf ps l.toUrl).isSome) = true ↔
    resolvesKnown ps l = true
  rw [stageOf_isSome_eq ps h2, stageOf_isSome_eq ps h2]
  exact Iff.rfl

/-- Claim C4 witness at a dataset with distinct page URLs. -/
theorem c4_transition_sum_amended_witness :
    ((sankeyDf c4wPages c4Links).map (fun r => r.2.2)).sum =
      c4Links.countP (resolvesKnown c4wPages) :=
  c4_transition_sum_amended c4wPages c4Links (by decide)

/-- Claim C5: on the spec's two-page, one-link example with all filters set to
all observed values, page x gets `InboundLinks = 0`, page y gets
`InboundLinks = 1`, and the transition table is exactly `[(TOF, MOF, 1)]`. -/
theorem c5_end_to_end :
    (computeGap exFiltered.1 exFiltered.2).map (fun r => (r.page.url, r.inboundLinks)) =
      [(some "https://a.com/x", 0), (some "https://a.com/y", 1)] ∧
    sankeyDf exFiltered.1 exFiltered.2 = [("TOF", "MOF", 1)] := by
  decide

/-- Claim C6: the normalizer equals "lower-case, then strip all trailing
slashes" (the two operations commute), is idempotent, identifies
`"HTTP://Example.com/Path/"` with `"http://example.com/path"`, and is the one
function applied to page addresses and to both link endpoints. -/
theorem c6_normalize (s : String) :
    normalize s = normalizeSpec s ∧
    normalize (normalize s) = normalize s ∧
    normalize "HTTP://Example.com/Path/" = normalize "http://example.com/path" ∧
    (∀ p : PageRow, (mkFPage p).url = p.address.map normalize) ∧
    (∀ l : LinkRow, (mkFLink l).fromUrl = l.source.map normalize ∧
      (mkFLink l).toUrl = l.destination.map normalize) :=
  ⟨normalize_eq_normalizeSpec s, normalize_idem s, by decide,
    fun _ => rfl, fun _ => ⟨rfl, rfl⟩⟩

/-- Claim C7 counterexample: an upload whose pages table lacks the `Funnel`
column makes the distinct-values query fail, yet the session no longer holds
the prior tables — `load_tables` dropped and replaced them before any check. -/
theorem c7_counterexample :
    isErrorResult (ingest c7Prior c7NewPages c7NewAnchors).2 = true ∧
    (ingest c7Prior c7NewPages c7NewAnchors).1 ≠ c7Prior := by
  decide

/-- Claim C7 (amended): on a missing `Funnel` column the derived-list query
reports an error before any filtering or aggregation runs, but the upload has
already replaced the session's tables with the new (unvalidated) data; the
prior tables are not retained. -/
theorem c7_ingestion_amended (s : Session) (p a : RawTable)
    (h : ¬ "Funnel" ∈ p.cols) :
    (ingest s p a).1 = some (p, a) ∧ isErrorResult (ingest s p a).2 = true := by
  constructor
  · rfl
  · have hcol : colIdx p.cols "Funnel" = none := colIdx_none h
    have herr : (ingest s p a).2 = Except.error ("no column named " ++ "Funnel") := by
      unfold ingest distinctCol getCol
      rw [hcol]
      rfl
    rw [herr]
    rfl

/-- Claim C7 witness at the concrete session. -/
theorem c7_ingestion_amended_witness :
    (ingest c7Prior c7NewPages c7NewAnchors).1 = some (c7NewPages, c7NewAnchors) ∧
    isErrorResult (ingest c7Prior c7NewPages c7NewAnchors).2 = true :=
  c7_ingestion_amended c7Prior c7NewPages c7NewAnchors (by decide)

/-- Claim C8 counterexample: in `gap_analysis_app.py` the link-position
selection is initialized to the fixed list `["Content"]`, not to the distinct
observed values (`["Footer"]` here). -/
theorem c8_counterexample :
    (gapAppDefaults [] c8Links).2.2 ≠ positionList c8Links := by
  decide

/-- Claim C8 (amended): in the dashboard variants all three selections are
initialized to exactly the distinct non-null observed values of the current
dataset; in the reduced variant funnel and geo are too, but the link-position
selection is initialized to the fixed subset `["Content"]`. -/
theorem c8_defaults_amended (ps : List PageRow) (ls : List LinkRow) :
    (∀ v, v ∈ (dashboardDefaults ps ls).1 ↔ some v ∈ ps.map PageRow.funnel) ∧
    (∀ v, v ∈ (dashboardDefaults ps ls).2.1 ↔ some v ∈ ps.map PageRow.geo) ∧
    (∀ v, v ∈ (dashboardDefaults ps ls).2.2 ↔ some v ∈ ls.map LinkRow.position) ∧
    (gapAppDefaults ps ls).1 = funnelList ps ∧
    (gapAppDefaults ps ls).2.1 = geoList ps ∧
    (gapAppDefaults ps ls).2.2 = ["Content"] :=
  ⟨fun v => mem_distinctSorted _ v, fun v => mem_distinctSorted _ v,
    fun v => mem_distinctSorted _ v, rfl, rfl, rfl⟩

/-- Claim C9: the rows kept by the threshold filter form a subsequence of the
gap table whose size is non-decreasing in the threshold, and thresholding at
the maximum inbound count keeps every row. -/
theorem c9_threshold_monotone (g : List GapRow) (k j : Nat) (h : k ≤ j) :
    (thresholdGap g k).length ≤ (thresholdGap g j).length ∧
    List.Sublist (thresholdGap g k) g ∧
    thresholdGap g (maxInbound g) = g := by
  refine ⟨?_, ?_, ?_⟩
  · apply length_filter_le_of_imp
    intro r hr
    rw [decide_eq_true_eq] at hr ⊢
    omega
  · exact List.filter_sublist g
  · apply List.filter_eq_self.mpr
    intro r hr
    rw [decide_eq_true_eq]
    exact le_maxInbound g r hr

/-- Claim C9 witness at the example gap table. -/
theorem c9_threshold_monotone_witness :
    (thresholdGap exGap 0).length ≤ (thresholdGap exGap 1).length ∧
    List.Sublist (thresholdGap exGap 0) exGap ∧
    thresholdGap exGap (maxInbound exGap) = exGap :=
  c9_threshold_monotone exGap 0 1 (by decide)

/-- Claim C10 counterexample: the only filtered link has a null destination,
yet the transition table counts it — a page row with a null `Address` (null
URL) matches the null key, because pandas `merge` matches null join keys. -/
theorem c10_counterexample :
    c10Filtered.2.all (fun l => l.toUrl.isNone) = true ∧
    sankeyDf c10Filtered.1 c10Filtered.2 = [("TOF", "MOF", 1)] := by
  decide

/-- Claim C10 (amended): a filtered link row with a null destination never
contributes to any `InboundLinks` count (unconditionally: null group keys are
dropped and a null left key never matches the non-null group keys); provided
every filtered page row has a non-null URL, it contributes to no transition
count either.  Both parts are stated as: deleting all null-destination link
rows changes nothing. -/
theorem c10_null_destination_amended (ps : List FPage) (ls : List FLink) :
    computeGap ps (ls.filter (fun l => l.toUrl.isSome)) = computeGap ps ls ∧
    ((∀ p ∈ ps, p.url.isSome = true) →
      sankeyDf ps (ls.filter (fun l => l.toUrl.isSome)) = sankeyDf ps ls) := by
  constructor
  · rw [computeGap_eq, computeGap_eq]
    apply List.map_congr_left
    intro p _
    rw [inboundVal_filter_toUrl]
  · intro h
    unfold sankeyDf
    rw [sankeyPairs_filter_toUrl ps ls h]

/-- Claim C10 witness: the InboundLinks part at the dataset with a null-URL
page (no hypothesis needed), the transition part at a dataset with non-null
page URLs. -/
theorem c10_null_destination_amended_witness :
    computeGap c10Filtered.1 (c10Filtered.2.filter (fun l => l.toUrl.isSome)) =
      computeGap c10Filtered.1 c10Filtered.2 ∧
    sankeyDf c4wPages (c4Links.filter (fun l => l.toUrl.isSome)) =
      sankeyDf c4wPages c4Links :=
  ⟨(c10_null_destination_amended c10Filtered.1 c10Filtered.2).1,
    (c10_null_destination_amended c4wPages c4Links).2 (by decide)⟩

end FunnelFusion
